import Mathlib

/-!
Verification of the food supply-chain registry (`src/food.py`).

The Python module is a single-threaded in-memory registry of products,
locations, inventory items, orders and deliveries.  Python `dict`s are
modelled as insertion-ordered association lists (lookup scans from the
front; assignment to an existing key updates the entry in place, keeping
its position; assignment to a fresh key appends at the end), which is
exactly the observable iteration/update behaviour of a Python dict.
Python `print` side-channel messages are modelled by an explicit
`Condition` classification emitted alongside each operation's result.
An uncaught Python exception (a `KeyError` from `self.products[pid]`)
is modelled by the operation returning `none`.
Quantities are Python ints, modelled by `Int`.  Dates are irrelevant to
every property proved here and are carried as opaque `Option String`.
-/

/-- mirrors `class Product` of `src/food.py` (immutable record). -/
structure Product where
  product_id : String
  name : String
  category : String
  expiry_date : Option String
  deriving DecidableEq

/-- mirrors `class Location` of `src/food.py` (immutable record). -/
structure Location where
  location_id : String
  name : String
  location_type : String
  deriving DecidableEq

/-- mirrors `class InventoryItem`: product and location are immutable shared
references, copied here as values; `quantity` is the one mutable field. -/
structure InventoryItem where
  product : Product
  location : Location
  quantity : Int
  deriving DecidableEq

/-- mirrors `class Order`; `items` is the `{product_id: quantity}` dict and
`order_date = none` stands for the defaulted creation date. -/
structure Order where
  order_id : String
  customer : String
  order_date : Option String
  items : List (String × Int)
  status : String
  deriving DecidableEq

/-- mirrors `class Delivery`; the Python object holds a shared reference to
its Order, modelled here by the order's registry key `order_id`. -/
structure Delivery where
  delivery_id : String
  order_id : String
  delivery_date : Option String
  tracking_id : Option String
  status : String
  deriving DecidableEq

/-- classification of the status line each registry operation prints
(per spec section 6 the condition kind, not the wording, is the contract). -/
inductive Condition where
  | productAdded
  | duplicateProduct
  | locationAdded
  | duplicateLocation
  | inventoryAdded
  | invalidReference
  | orderPlaced
  | productNotFound (product_id : String)
  | orderNotFound
  | insufficientStock (product_id : String)
  | shipped (product_id : String)
  | orderFulfilled
  | notYetFulfilled
  | deliveryScheduled
  | deliveryNotFound
  | deliveryStatusUpdated
  deriving DecidableEq

/-- mirrors `class FoodSupplyChain.__init__`: the five keyed mappings. -/
structure FoodSupplyChain where
  products : List (String × Product)
  locations : List (String × Location)
  inventory : List ((String × String) × InventoryItem)
  orders : List (String × Order)
  deliveries : List (String × Delivery)
  deriving DecidableEq

/-- Python `d.get(k)` / `k in d`: first (unique) entry with the key. -/
def assocFind {α β : Type} [DecidableEq α] : List (α × β) → α → Option β
  | [], _ => none
  | (k, v) :: rest, key => if k = key then some v else assocFind rest key

/-- Python `d[k] = v`: overwrite in place if the key exists, else append. -/
def dictInsert {α β : Type} [DecidableEq α] : List (α × β) → α → β → List (α × β)
  | [], key, val => [(key, val)]
  | (k, v) :: rest, key, val =>
      if k = key then (key, val) :: rest else (k, v) :: dictInsert rest key val

/-- a fresh registry, as built by `FoodSupplyChain.__init__`. -/
def FoodSupplyChain.init : FoodSupplyChain :=
  { products := [], locations := [], inventory := [], orders := [], deliveries := [] }

/-- mirrors `Order.add_item`: accumulate the quantity if the product id is
already a key of the order's item dict, else insert it. -/
def Order.add_item (o : Order) (product_id : String) (quantity : Int) : Order :=
  match assocFind o.items product_id with
  | some q => { o with items := dictInsert o.items product_id (q + quantity) }
  | none => { o with items := o.items ++ [(product_id, quantity)] }

/-- mirrors `Order.update_status`: unconditional overwrite. -/
def Order.update_status (o : Order) (new_status : String) : Order :=
  { o with status := new_status }

/-- mirrors `Delivery.update_status`: unconditional overwrite. -/
def Delivery.update_status (d : Delivery) (new_status : String) : Delivery :=
  { d with status := new_status }

/-- mirrors `FoodSupplyChain.add_product`. -/
def FoodSupplyChain.add_product (s : FoodSupplyChain) (product : Product) :
    FoodSupplyChain × Condition :=
  if (assocFind s.products product.product_id).isNone then
    ({ s with products := s.products ++ [(product.product_id, product)] },
     Condition.productAdded)
  else
    (s, Condition.duplicateProduct)

/-- mirrors `FoodSupplyChain.add_location`. -/
def FoodSupplyChain.add_location (s : FoodSupplyChain) (location : Location) :
    FoodSupplyChain × Condition :=
  if (assocFind s.locations location.location_id).isNone then
    ({ s with locations := s.locations ++ [(location.location_id, location)] },
     Condition.locationAdded)
  else
    (s, Condition.duplicateLocation)

/-- mirrors the `self.inventory[key].quantity += quantity` branch of
`add_inventory`: in-place increment at the (unique) key. -/
def incrInventory : List ((String × String) × InventoryItem) → String × String → Int →
    List ((String × String) × InventoryItem)
  | [], _, _ => []
  | (k, item) :: rest, key, quantity =>
      if k = key then (k, { item with quantity := item.quantity + quantity }) :: rest
      else (k, item) :: incrInventory rest key quantity

/-- mirrors `FoodSupplyChain.add_inventory`. -/
def FoodSupplyChain.add_inventory (s : FoodSupplyChain) (product_id location_id : String)
    (quantity : Int) : FoodSupplyChain × Condition :=
  match assocFind s.products product_id, assocFind s.locations location_id with
  | some product, some location =>
      let key := (product_id, location_id)
      match assocFind s.inventory key with
      | none =>
          ({ s with inventory :=
              s.inventory ++ [(key, { product := product, location := location,
                                      quantity := quantity })] },
           Condition.inventoryAdded)
      | some _ =>
          ({ s with inventory := incrInventory s.inventory key quantity },
           Condition.inventoryAdded)
  | _, _ => (s, Condition.invalidReference)

/-- mirrors `FoodSupplyChain.get_inventory`: pure lookup. -/
def FoodSupplyChain.get_inventory (s : FoodSupplyChain) (product_id location_id : String) :
    Option InventoryItem :=
  assocFind s.inventory (product_id, location_id)

/-- one iteration of the `for product_id, quantity in order_items.items()`
loop of `place_order`: add the line item when the product is registered,
otherwise report a not-found condition and skip it. -/
def placeOrderStep (products : List (String × Product)) (acc : Order × List Condition)
    (it : String × Int) : Order × List Condition :=
  if (assocFind products it.1).isSome then
    (acc.1.add_item it.1 it.2, acc.2)
  else
    (acc.1, acc.2 ++ [Condition.productNotFound it.1])

/-- mirrors `FoodSupplyChain.place_order`: sequential id, skip (and report)
unregistered line items, register and return the order. -/
def FoodSupplyChain.place_order (s : FoodSupplyChain) (customer : String)
    (order_items : List (String × Int)) : Order × FoodSupplyChain × List Condition :=
  let order_id := "ORD-" ++ Nat.repr (s.orders.length + 1)
  let new_order : Order :=
    { order_id := order_id, customer := customer, order_date := none,
      items := [], status := "Pending" }
  let result := order_items.foldl (placeOrderStep s.products) (new_order, [])
  (result.1,
   { s with orders := dictInsert s.orders order_id result.1 },
   result.2 ++ [Condition.orderPlaced])

/-- the linear scan of `fulfill_order` for one line item: find the first
inventory entry whose product matches and whose quantity suffices, and
decrement it in place; `none` when no single location has enough stock. -/
def decrementFirstSufficient : List ((String × String) × InventoryItem) → String → Int →
    Option (List ((String × String) × InventoryItem))
  | [], _, _ => none
  | (k, item) :: rest, product_id, quantity_needed =>
      if k.1 = product_id ∧ item.quantity ≥ quantity_needed then
        some ((k, { item with quantity := item.quantity - quantity_needed }) :: rest)
      else
        (decrementFirstSufficient rest product_id quantity_needed).map
          (fun rest2 => (k, item) :: rest2)

/-- the per-line-item loop of `fulfill_order` over the order's items.
Returns `(success, new inventory, conditions)`; `none` models the
`KeyError` raised by `self.products[product_id]` in either status line
when the product id is unregistered. -/
def fulfillLoop (products : List (String × Product)) :
    List ((String × String) × InventoryItem) → List (String × Int) →
    Option (Bool × List ((String × String) × InventoryItem) × List Condition)
  | inv, [] => some (true, inv, [])
  | inv, (product_id, quantity_needed) :: rest =>
      match decrementFirstSufficient inv product_id quantity_needed with
      | none =>
          match assocFind products product_id with
          | none => none
          | some _ => some (false, inv, [Condition.insufficientStock product_id])
      | some inv2 =>
          match assocFind products product_id with
          | none => none
          | some _ =>
              match fulfillLoop products inv2 rest with
              | none => none
              | some (ok, inv3, cs) =>
                  some (ok, inv3, Condition.shipped product_id :: cs)

/-- mirrors `FoodSupplyChain.fulfill_order`; decrements happen immediately,
with no rollback when a later line item fails. -/
def FoodSupplyChain.fulfill_order (s : FoodSupplyChain) (order_id : String) :
    Option (Bool × FoodSupplyChain × List Condition) :=
  match assocFind s.orders order_id with
  | none => some (false, s, [Condition.orderNotFound])
  | some order =>
      match fulfillLoop s.products s.inventory order.items with
      | none => none
      | some (false, inv2, cs) => some (false, { s with inventory := inv2 }, cs)
      | some (true, inv2, cs) =>
          some (true,
            { s with inventory := inv2,
                     orders := dictInsert s.orders order_id
                                 (order.update_status "Fulfilled") },
            cs ++ [Condition.orderFulfilled])

/-- mirrors `FoodSupplyChain.schedule_delivery`: gated on status "Fulfilled". -/
def FoodSupplyChain.schedule_delivery (s : FoodSupplyChain) (order_id : String)
    (delivery_date : Option String) :
    Option Delivery × FoodSupplyChain × Condition :=
  match assocFind s.orders order_id with
  | none => (none, s, Condition.orderNotFound)
  | some order =>
      if order.status ≠ "Fulfilled" then (none, s, Condition.notYetFulfilled)
      else
        let delivery_id := "DEL-" ++ Nat.repr (s.deliveries.length + 1)
        let new_delivery : Delivery :=
          { delivery_id := delivery_id, order_id := order_id,
            delivery_date := delivery_date, tracking_id := none,
            status := "Scheduled" }
        (some new_delivery,
         { s with deliveries := dictInsert s.deliveries delivery_id new_delivery },
         Condition.deliveryScheduled)

/-- mirrors `FoodSupplyChain.update_delivery_status`. -/
def FoodSupplyChain.update_delivery_status (s : FoodSupplyChain) (delivery_id : String)
    (new_status : String) : FoodSupplyChain × Condition :=
  match assocFind s.deliveries delivery_id with
  | some d =>
      ({ s with deliveries := dictInsert s.deliveries delivery_id
                  (d.update_status new_status) },
       Condition.deliveryStatusUpdated)
  | none => (s, Condition.deliveryNotFound)

/-- mirrors `FoodSupplyChain.track_delivery`: pure lookup. -/
def FoodSupplyChain.track_delivery (s : FoodSupplyChain) (delivery_id : String) :
    Option Delivery :=
  assocFind s.deliveries delivery_id

/-- the states reachable from a fresh registry through the registry's
mutating operations (the public interface of `FoodSupplyChain`). -/
inductive Reachable : FoodSupplyChain → Prop where
  | init : Reachable FoodSupplyChain.init
  | add_product (s : FoodSupplyChain) (p : Product) :
      Reachable s → Reachable (s.add_product p).1
  | add_location (s : FoodSupplyChain) (l : Location) :
      Reachable s → Reachable (s.add_location l).1
  | add_inventory (s : FoodSupplyChain) (pid lid : String) (q : Int) :
      Reachable s → Reachable (s.add_inventory pid lid q).1
  | place_order (s : FoodSupplyChain) (customer : String) (its : List (String × Int)) :
      Reachable s → Reachable (s.place_order customer its).2.1
  | fulfill_order (s s2 : FoodSupplyChain) (oid : String) (r : Bool) (cs : List Condition) :
      Reachable s → s.fulfill_order oid = some (r, s2, cs) → Reachable s2
  | schedule_delivery (s : FoodSupplyChain) (oid : String) (dd : Option String) :
      Reachable s → Reachable (s.schedule_delivery oid dd).2.1
  | update_delivery_status (s : FoodSupplyChain) (did ns : String) :
      Reachable s → Reachable (s.update_delivery_status did ns).1

/-! ### Association-list lemmas (Python dict behaviour) -/

theorem assocFind_dictInsert_self {α β : Type} [DecidableEq α] (l : List (α × β)) (k : α)
    (v : β) : assocFind (dictInsert l k v) k = some v := by
  induction l with
  | nil => simp [dictInsert, assocFind]
  | cons e rest ih =>
      obtain ⟨a, b⟩ := e
      by_cases h : a = k
      · simp [dictInsert, h, assocFind]
      · simp [dictInsert, h, assocFind, ih]

theorem assocFind_dictInsert_ne {α β : Type} [DecidableEq α] (l : List (α × β)) (k k2 : α)
    (v : β) (h : k2 ≠ k) : assocFind (dictInsert l k v) k2 = assocFind l k2 := by
  induction l with
  | nil =>
      simp [dictInsert, assocFind]
      exact fun hh => h hh.symm
  | cons e rest ih =>
      obtain ⟨a, b⟩ := e
      by_cases ha : a = k
      · subst ha
        have h2 : ¬ a = k2 := fun hh => h hh.symm
        simp [dictInsert, assocFind, h2]
      · simp [dictInsert, ha, assocFind, ih]

theorem dictInsert_of_find_none {α β : Type} [DecidableEq α] (l : List (α × β)) (k : α)
    (v : β) (h : assocFind l k = none) : dictInsert l k v = l ++ [(k, v)] := by
  induction l with
  | nil => simp [dictInsert]
  | cons e rest ih =>
      obtain ⟨a, b⟩ := e
      by_cases ha : a = k
      · simp [assocFind, ha] at h
      · simp [assocFind, ha] at h
        simp [dictInsert, ha, ih h]

theorem assocFind_append_of_none {α β : Type} [DecidableEq α] (l1 l2 : List (α × β)) (k : α)
    (h : assocFind l1 k = none) : assocFind (l1 ++ l2) k = assocFind l2 k := by
  induction l1 with
  | nil => simp
  | cons e rest ih =>
      obtain ⟨a, b⟩ := e
      by_cases ha : a = k
      · simp [assocFind, ha] at h
      · simp [assocFind, ha] at h ⊢
        exact ih h

theorem assocFind_append_left {α β : Type} [DecidableEq α] (l1 l2 : List (α × β)) (k : α)
    (v : β) (h : assocFind l1 k = some v) : assocFind (l1 ++ l2) k = some v := by
  induction l1 with
  | nil => simp [assocFind] at h
  | cons e rest ih =>
      obtain ⟨a, b⟩ := e
      by_cases ha : a = k
      · simp [assocFind, ha] at h ⊢
        exact h
      · simp [assocFind, ha] at h ⊢
        exact ih h

theorem assocFind_eq_none_iff {α β : Type} [DecidableEq α] (l : List (α × β)) (k : α) :
    assocFind l k = none ↔ k ∉ l.map Prod.fst := by
  induction l with
  | nil => simp [assocFind]
  | cons e rest ih =>
      obtain ⟨a, b⟩ := e
      by_cases ha : a = k
      · simp [assocFind, ha]
      · have h2 : ¬ k = a := fun hh => ha hh.symm
        simp [assocFind, ha, ih, h2]

theorem assocFind_mem {α β : Type} [DecidableEq α] {l : List (α × β)} {k : α} {v : β}
    (h : assocFind l k = some v) : (k, v) ∈ l := by
  induction l with
  | nil => simp [assocFind] at h
  | cons e rest ih =>
      obtain ⟨a, b⟩ := e
      by_cases ha : a = k
      · simp [assocFind, ha] at h
        subst ha h
        exact List.mem_cons_self _ _
      · simp [assocFind, ha] at h
        exact List.mem_cons_of_mem _ (ih h)

theorem mem_dictInsert {α β : Type} [DecidableEq α] {l : List (α × β)} {k : α} {v : β}
    {e : α × β} (h : e ∈ dictInsert l k v) : e = (k, v) ∨ e ∈ l := by
  induction l with
  | nil => simp [dictInsert] at h; simp [h]
  | cons e2 rest ih =>
      obtain ⟨a, b⟩ := e2
      by_cases ha : a = k
      · simp [dictInsert, ha] at h
        rcases h with h | h
        · exact Or.inl h
        · exact Or.inr (List.mem_cons_of_mem _ h)
      · simp [dictInsert, ha] at h
        rcases h with h | h
        · exact Or.inr (by simp [h])
        · rcases ih h with h2 | h2
          · exact Or.inl h2
          · exact Or.inr (List.mem_cons_of_mem _ h2)

theorem assocFind_incrInventory_self (inv : List ((String × String) × InventoryItem))
    (key : String × String) (q : Int) :
    assocFind (incrInventory inv key q) key =
      (assocFind inv key).map (fun it => { it with quantity := it.quantity + q }) := by
  induction inv with
  | nil => simp [incrInventory, assocFind]
  | cons e rest ih =>
      obtain ⟨a, b⟩ := e
      by_cases ha : a = key
      · simp [incrInventory, ha, assocFind]
      · simp [incrInventory, ha, assocFind, ih]

/-! ### Injectivity of the decimal rendering used by the id generators -/

/-- most-significant-first decimal digit list of a natural number; this is
what `Nat.toDigits 10` computes once its fuel argument is large enough. -/
def toDigitsWF (n : Nat) : List Char :=
  if h : n < 10 then [Nat.digitChar n]
  else toDigitsWF (n / 10) ++ [Nat.digitChar (n % 10)]
decreasing_by exact Nat.div_lt_self (by omega) (by omega)

theorem toDigitsWF_lt {n : Nat} (h : n < 10) : toDigitsWF n = [Nat.digitChar n] := by
  rw [toDigitsWF]
  exact dif_pos h

theorem toDigitsWF_ge {n : Nat} (h : ¬ n < 10) :
    toDigitsWF n = toDigitsWF (n / 10) ++ [Nat.digitChar (n % 10)] := by
  rw [toDigitsWF]
  exact dif_neg h

theorem toDigitsWF_ne_nil (n : Nat) : toDigitsWF n ≠ [] := by
  by_cases h : n < 10
  · simp [toDigitsWF_lt h]
  · simp [toDigitsWF_ge h]

theorem digitChar_inj_lt {a b : Nat} (ha : a < 10) (hb : b < 10)
    (h : Nat.digitChar a = Nat.digitChar b) : a = b := by
  interval_cases a <;> interval_cases b <;> (revert h; decide)

theorem toDigitsWF_inj (m : Nat) : ∀ n : Nat, toDigitsWF m = toDigitsWF n → m = n := by
  induction m using Nat.strong_induction_on with
  | _ m ih =>
    intro n h
    by_cases hm : m < 10 <;> by_cases hn : n < 10
    · rw [toDigitsWF_lt hm, toDigitsWF_lt hn] at h
      exact digitChar_inj_lt hm hn (List.cons.inj h).1
    · rw [toDigitsWF_lt hm, toDigitsWF_ge hn] at h
      have hlen := congrArg List.length h
      simp only [List.length_cons, List.length_append, List.length_nil] at hlen
      have hz : (toDigitsWF (n / 10)).length = 0 := by omega
      exact absurd (List.length_eq_zero.mp hz) (toDigitsWF_ne_nil (n / 10))
    · rw [toDigitsWF_ge hm, toDigitsWF_lt hn] at h
      have hlen := congrArg List.length h
      simp only [List.length_cons, List.length_append, List.length_nil] at hlen
      have hz : (toDigitsWF (m / 10)).length = 0 := by omega
      exact absurd (List.length_eq_zero.mp hz) (toDigitsWF_ne_nil (m / 10))
    · rw [toDigitsWF_ge hm, toDigitsWF_ge hn] at h
      obtain ⟨h3, h4⟩ := List.append_inj' h (by simp)
      have hdiv : m / 10 = n / 10 :=
        ih (m / 10) (Nat.div_lt_self (by omega) (by omega)) (n / 10) h3
      have hmod : m % 10 = n % 10 :=
        digitChar_inj_lt (Nat.mod_lt _ (by omega)) (Nat.mod_lt _ (by omega))
          (List.cons.inj h4).1
      omega

theorem toDigitsCore_eq (fuel : Nat) : ∀ (n : Nat) (ds : List Char), n < fuel →
    Nat.toDigitsCore 10 fuel n ds = toDigitsWF n ++ ds := by
  induction fuel with
  | zero => intro n ds h; omega
  | succ f ih =>
      intro n ds h
      by_cases h0 : n / 10 = 0
      · have hn : n < 10 := by omega
        simp [Nat.toDigitsCore, h0, toDigitsWF_lt hn, Nat.mod_eq_of_lt hn]
      · have hf : n / 10 < f := by omega
        simp only [Nat.toDigitsCore, h0, if_false]
        rw [@toDigitsWF_ge n (by omega), ih (n / 10) (Nat.digitChar (n % 10) :: ds) hf]
        simp

theorem natRepr_inj {m n : Nat} (h : Nat.repr m = Nat.repr n) : m = n := by
  unfold Nat.repr at h
  rw [Nat.toDigits, Nat.toDigits, toDigitsCore_eq (m + 1) m [] (by omega),
      toDigitsCore_eq (n + 1) n [] (by omega)] at h
  simp [List.asString_inj] at h
  exact toDigitsWF_inj m n h

theorem string_append_cancel_left {s t u : String} (h : s ++ t = s ++ u) : t = u := by
  obtain ⟨sd⟩ := s
  obtain ⟨td⟩ := t
  obtain ⟨ud⟩ := u
  have h2 : sd ++ td = sd ++ ud := congrArg String.data h
  have h3 := List.append_cancel_left h2
  simp [h3]

/-! ### Lemmas about the fulfillment scan -/

/-- an inventory entry can satisfy a line item when its product matches and
its quantity suffices. -/
def Sufficient (product_id : String) (quantity_needed : Int)
    (e : (String × String) × InventoryItem) : Prop :=
  e.1.1 = product_id ∧ e.2.quantity ≥ quantity_needed

instance (product_id : String) (quantity_needed : Int)
    (e : (String × String) × InventoryItem) :
    Decidable (Sufficient product_id quantity_needed e) := by
  unfold Sufficient
  infer_instance

theorem decrementFirstSufficient_eq_none_iff
    (inv : List ((String × String) × InventoryItem)) (pid : String) (q : Int) :
    decrementFirstSufficient inv pid q = none ↔ ∀ e ∈ inv, ¬ Sufficient pid q e := by
  induction inv with
  | nil => simp [decrementFirstSufficient]
  | cons e rest ih =>
      obtain ⟨k, item⟩ := e
      by_cases hs : k.1 = pid ∧ item.quantity ≥ q
      · simp [decrementFirstSufficient, hs, Sufficient]
      · rw [show decrementFirstSufficient ((k, item) :: rest) pid q
              = (decrementFirstSufficient rest pid q).map (fun r => (k, item) :: r) from by
            simp [decrementFirstSufficient, hs]]
        rw [Option.map_eq_none', ih]
        constructor
        · intro hrest e he
          rcases List.mem_cons.mp he with he | he
          · subst he
            simpa [Sufficient] using hs
          · exact hrest e he
        · intro hall e he
          exact hall e (List.mem_cons_of_mem _ he)

theorem decrementFirstSufficient_append_found
    (pre post : List ((String × String) × InventoryItem)) (k : String × String)
    (item : InventoryItem) (pid : String) (q : Int)
    (hpre : ∀ e ∈ pre, ¬ Sufficient pid q e) (hk : k.1 = pid) (hq : item.quantity ≥ q) :
    decrementFirstSufficient (pre ++ (k, item) :: post) pid q =
      some (pre ++ (k, { item with quantity := item.quantity - q }) :: post) := by
  induction pre with
  | nil => simp [decrementFirstSufficient, hk, hq]
  | cons e rest ih =>
      obtain ⟨k2, item2⟩ := e
      have hns : ¬ (k2.1 = pid ∧ item2.quantity ≥ q) :=
        hpre (k2, item2) (List.mem_cons_self _ _)
      simp only [List.cons_append, decrementFirstSufficient, if_neg hns]
      rw [List.append_eq, ih (fun e he => hpre e (List.mem_cons_of_mem _ he))]
      rfl

theorem decrementFirstSufficient_some_shape
    (inv : List ((String × String) × InventoryItem)) (pid : String) (q : Int)
    (inv2 : List ((String × String) × InventoryItem))
    (h : decrementFirstSufficient inv pid q = some inv2) :
    ∃ pre k item post, inv = pre ++ (k, item) :: post ∧
      (∀ e ∈ pre, ¬ Sufficient pid q e) ∧ k.1 = pid ∧ item.quantity ≥ q ∧
      inv2 = pre ++ (k, { item with quantity := item.quantity - q }) :: post := by
  induction inv generalizing inv2 with
  | nil => simp [decrementFirstSufficient] at h
  | cons e rest ih =>
      obtain ⟨k, item⟩ := e
      by_cases hs : k.1 = pid ∧ item.quantity ≥ q
      · simp only [decrementFirstSufficient, if_pos hs, Option.some.injEq] at h
        exact ⟨[], k, item, rest, by simp, by simp, hs.1, hs.2, h.symm⟩
      · simp only [decrementFirstSufficient, if_neg hs, Option.map_eq_some'] at h
        obtain ⟨rest2, hrest2, hcons⟩ := h
        obtain ⟨pre, k2, item2, post, heq, hpre, hk2, hq2, hinv2⟩ := ih rest2 hrest2
        refine ⟨(k, item) :: pre, k2, item2, post, by simp [heq], ?_, hk2, hq2, ?_⟩
        · intro e he
          rcases List.mem_cons.mp he with he | he
          · subst he
            simpa [Sufficient] using hs
          · exact hpre e he
        · simp [← hcons, hinv2]

theorem decrementFirstSufficient_nonneg
    (inv : List ((String × String) × InventoryItem)) (pid : String) (q : Int)
    (inv2 : List ((String × String) × InventoryItem))
    (hnn : ∀ e ∈ inv, 0 ≤ e.2.quantity)
    (h : decrementFirstSufficient inv pid q = some inv2) :
    ∀ e ∈ inv2, 0 ≤ e.2.quantity := by
  obtain ⟨pre, k, item, post, heq, hpre, hk, hq, hinv2⟩ :=
    decrementFirstSufficient_some_shape inv pid q inv2 h
  subst heq hinv2
  intro e he
  rcases List.mem_append.mp he with he | he
  · exact hnn e (List.mem_append_left _ he)
  · rcases List.mem_cons.mp he with he | he
    · subst he
      simp only []
      omega
    · exact hnn e (List.mem_append_right _ (List.mem_cons_of_mem _ he))

theorem fulfillLoop_nonneg (products : List (String × Product)) :
    ∀ (items : List (String × Int)) (inv : List ((String × String) × InventoryItem))
      (r : Bool) (inv2 : List ((String × String) × InventoryItem)) (cs : List Condition),
      (∀ e ∈ inv, 0 ≤ e.2.quantity) →
      fulfillLoop products inv items = some (r, inv2, cs) →
      ∀ e ∈ inv2, 0 ≤ e.2.quantity := by
  intro items
  induction items with
  | nil =>
      intro inv r inv2 cs hnn h
      simp only [fulfillLoop, Option.some.injEq, Prod.mk.injEq] at h
      obtain ⟨h1, h2, h3⟩ := h
      subst h2
      exact hnn
  | cons it rest ih =>
      intro inv r inv2 cs hnn h
      obtain ⟨pid, qn⟩ := it
      cases hd : decrementFirstSufficient inv pid qn with
      | none =>
          cases hp : assocFind products pid with
          | none => simp [fulfillLoop, hd, hp] at h
          | some p =>
              simp only [fulfillLoop, hd, hp, Option.some.injEq, Prod.mk.injEq] at h
              obtain ⟨h1, h2, h3⟩ := h
              subst h2
              exact hnn
      | some invd =>
          cases hp : assocFind products pid with
          | none => simp [fulfillLoop, hd, hp] at h
          | some p =>
              cases hl : fulfillLoop products invd rest with
              | none => simp [fulfillLoop, hd, hp, hl] at h
              | some trip =>
                  obtain ⟨ok, inv3, cs3⟩ := trip
                  simp only [fulfillLoop, hd, hp, hl, Option.some.injEq,
                    Prod.mk.injEq] at h
                  obtain ⟨h1, h2, h3⟩ := h
                  subst h2
                  exact ih invd ok inv3 cs3
                    (decrementFirstSufficient_nonneg inv pid qn invd hnn hd) hl

theorem fulfillLoop_ne_none (products : List (String × Product)) :
    ∀ (items : List (String × Int)) (inv : List ((String × String) × InventoryItem)),
      (∀ it ∈ items, (assocFind products it.1).isSome) →
      fulfillLoop products inv items ≠ none := by
  intro items
  induction items with
  | nil => intro inv hreg; simp [fulfillLoop]
  | cons it rest ih =>
      intro inv hreg
      obtain ⟨pid, qn⟩ := it
      have hp : (assocFind products pid).isSome := hreg (pid, qn) (List.mem_cons_self _ _)
      obtain ⟨p, hp⟩ := Option.isSome_iff_exists.mp hp
      cases hd : decrementFirstSufficient inv pid qn with
      | none => simp [fulfillLoop, hp, hd]
      | some invd =>
          have h2 := ih invd (fun it2 hm => hreg it2 (List.mem_cons_of_mem _ hm))
          cases hl : fulfillLoop products invd rest with
          | none => exact absurd hl h2
          | some trip =>
              obtain ⟨ok, inv3, cs3⟩ := trip
              simp [fulfillLoop, hp, hd, hl]

/-! ### Concrete sample data used by the witnesses -/

def wProduct : Product :=
  { product_id := "P1", name := "Apple", category := "Fruit", expiry_date := none }

def wProduct2 : Product :=
  { product_id := "P2", name := "Milk", category := "Dairy", expiry_date := none }

def wLocation : Location :=
  { location_id := "L1", name := "Depot", location_type := "Warehouse" }

def wLocation2 : Location :=
  { location_id := "L2", name := "Shop", location_type := "Retailer" }

def wItem10 : InventoryItem :=
  { product := wProduct, location := wLocation, quantity := 10 }

def wItem5 : InventoryItem :=
  { product := wProduct, location := wLocation2, quantity := 5 }

def wOrder : Order :=
  { order_id := "ORD-1", customer := "Alice", order_date := none,
    items := [("P1", 4)], status := "Pending" }

def wOrderF : Order :=
  { wOrder with status := "Fulfilled" }

/-- a registry with one product, one location, one stocked item and one
pending order for 4 units. -/
def s4 : FoodSupplyChain :=
  { products := [("P1", wProduct)], locations := [("L1", wLocation)],
    inventory := [(("P1", "L1"), wItem10)],
    orders := [("ORD-1", wOrder)], deliveries := [] }

/-- `s4` after its order has been fulfilled once (4 units shipped). -/
def s4after : FoodSupplyChain :=
  { products := [("P1", wProduct)], locations := [("L1", wLocation)],
    inventory := [(("P1", "L1"), { wItem10 with quantity := 6 })],
    orders := [("ORD-1", wOrderF)], deliveries := [] }

/-- `s4after` after the same order has been fulfilled a second time. -/
def s4twice : FoodSupplyChain :=
  { products := [("P1", wProduct)], locations := [("L1", wLocation)],
    inventory := [(("P1", "L1"), { wItem10 with quantity := 2 })],
    orders := [("ORD-1", wOrderF)], deliveries := [] }

/-! ### Claims -/

/-- Claim C4: if every inventory item's quantity is non-negative then after
any call to `fulfill_order` every inventory item's quantity is still
non-negative: fulfillment only decrements an item whose quantity is at
least the quantity needed, so no quantity is driven below zero. -/
theorem claim_C4 (s : FoodSupplyChain) (oid : String)
    (hnn : ∀ e ∈ s.inventory, 0 ≤ e.2.quantity) :
    ∀ (r : Bool) (s2 : FoodSupplyChain) (cs : List Condition),
      s.fulfill_order oid = some (r, s2, cs) → ∀ e ∈ s2.inventory, 0 ≤ e.2.quantity := by
  intro r s2 cs h
  cases ho : assocFind s.orders oid with
  | none =>
      simp only [FoodSupplyChain.fulfill_order, ho, Option.some.injEq, Prod.mk.injEq] at h
      obtain ⟨h1, h2, h3⟩ := h
      subst h2
      exact hnn
  | some order =>
      cases hl : fulfillLoop s.products s.inventory order.items with
      | none => simp [FoodSupplyChain.fulfill_order, ho, hl] at h
      | some trip =>
          obtain ⟨ok, inv2, cs2⟩ := trip
          have hinv2 :=
            fulfillLoop_nonneg s.products order.items s.inventory ok inv2 cs2 hnn hl
          cases ok with
          | false =>
              simp only [FoodSupplyChain.fulfill_order, ho, hl, Option.some.injEq,
                Prod.mk.injEq] at h
              obtain ⟨h1, h2, h3⟩ := h
              subst h2
              exact hinv2
          | true =>
              simp only [FoodSupplyChain.fulfill_order, ho, hl, Option.some.injEq,
                Prod.mk.injEq] at h
              obtain ⟨h1, h2, h3⟩ := h
              subst h2
              exact hinv2

/-- Witness for C4: the sample registry has non-negative stock, and so does
the state returned by a successful `fulfill_order` on it. -/
theorem claim_C4_witness :
    (∀ e ∈ s4.inventory, 0 ≤ e.2.quantity) ∧
      (∀ e ∈ s4after.inventory, 0 ≤ e.2.quantity) :=
  ⟨by decide,
   claim_C4 s4 "ORD-1" (by decide) true s4after
     [Condition.shipped "P1", Condition.orderFulfilled] (by decide)⟩

/-- Claim C7: re-adding a product whose id is already registered (and
likewise a location) reports a duplicate condition and leaves the entire
registry state unchanged; the operation is total, so no exception. -/
theorem claim_C7 (s : FoodSupplyChain) (p : Product) (l : Location)
    (hp : (assocFind s.products p.product_id).isSome)
    (hl : (assocFind s.locations l.location_id).isSome) :
    s.add_product p = (s, Condition.duplicateProduct) ∧
      s.add_location l = (s, Condition.duplicateLocation) := by
  obtain ⟨vp, hvp⟩ := Option.isSome_iff_exists.mp hp
  obtain ⟨vl, hvl⟩ := Option.isSome_iff_exists.mp hl
  constructor
  · simp [FoodSupplyChain.add_product, hvp]
  · simp [FoodSupplyChain.add_location, hvl]

/-- Witness for C7: re-adding the already-registered sample product and
location to the sample registry is a reported no-op. -/
theorem claim_C7_witness :
    s4.add_product wProduct = (s4, Condition.duplicateProduct) ∧
      s4.add_location wLocation = (s4, Condition.duplicateLocation) :=
  claim_C7 s4 wProduct wLocation (by decide) (by decide)

/-- a registry with a registered product and location but no stock yet,
used to witness inventory accumulation. -/
def s5 : FoodSupplyChain :=
  { products := [("P1", wProduct)], locations := [("L1", wLocation)],
    inventory := [], orders := [], deliveries := [] }

/-- Claim C5: with product `p` and location `l` registered and no existing
item for `(p, l)`, `add_inventory p l q1` then `add_inventory p l q2`
leaves the `(p, l)` item with quantity `q1 + q2` (the first call creates
it with `q1`, the second increments it by `q2`). -/
theorem claim_C5 (s : FoodSupplyChain) (p l : String) (q1 q2 : Int)
    (prod : Product) (loc : Location)
    (hp : assocFind s.products p = some prod)
    (hl : assocFind s.locations l = some loc)
    (hfresh : assocFind s.inventory (p, l) = none) :
    ∃ item, assocFind ((s.add_inventory p l q1).1.add_inventory p l q2).1.inventory (p, l)
        = some item ∧ item.quantity = q1 + q2 := by
  set item1 : InventoryItem := { product := prod, location := loc, quantity := q1 } with hitem1
  set inv1 := s.inventory ++ [((p, l), item1)] with hinv1
  have h1 : (s.add_inventory p l q1).1 = { s with inventory := inv1 } := by
    simp [FoodSupplyChain.add_inventory, hp, hl, hfresh, hinv1]
  rw [h1]
  have hfind : assocFind inv1 (p, l) = some item1 := by
    rw [hinv1, assocFind_append_of_none _ _ _ hfresh]
    simp [assocFind]
  have h2 : (({ s with inventory := inv1 } : FoodSupplyChain).add_inventory p l q2).1
      = { s with inventory := incrInventory inv1 (p, l) q2 } := by
    simp [FoodSupplyChain.add_inventory, hp, hl, hfind]
  rw [h2]
  refine ⟨{ product := prod, location := loc, quantity := q1 + q2 }, ?_, rfl⟩
  simp only []
  rw [assocFind_incrInventory_self, hfind]
  rfl

/-- Witness for C5: 3 then 5 units added to the empty sample stock yields a
single item of quantity 8. -/
theorem claim_C5_witness :
    ∃ item, assocFind ((s5.add_inventory "P1" "L1" 3).1.add_inventory "P1" "L1" 5).1.inventory
        ("P1", "L1") = some item ∧ item.quantity = 3 + 5 :=
  claim_C5 s5 "P1" "L1" 3 5 wProduct wLocation (by decide) (by decide) (by decide)

/-- a pending order asking 4 units of P1 and 3 units of P2. -/
def wOrder12 : Order :=
  { order_id := "ORD-1", customer := "Bob", order_date := none,
    items := [("P1", 4), ("P2", 3)], status := "Pending" }

/-- a registry with two products but stock only for the first, holding a
pending two-line-item order; used to witness partial failure. -/
def s1c : FoodSupplyChain :=
  { products := [("P1", wProduct), ("P2", wProduct2)],
    locations := [("L1", wLocation)],
    inventory := [(("P1", "L1"), wItem10)],
    orders := [("ORD-1", wOrder12)], deliveries := [] }

/-- Claim C1: on an order with two line items where the first has a single
sufficiently stocked location and the second has none, `fulfill_order`
returns failure, the order status stays "Pending", and the first line
item's decrement persists (no rollback). -/
theorem claim_C1 (s : FoodSupplyChain) (oid : String) (order : Order)
    (p1 p2 : String) (q1 q2 : Int)
    (pre post : List ((String × String) × InventoryItem)) (k : String × String)
    (item : InventoryItem)
    (horder : assocFind s.orders oid = some order)
    (hstatus : order.status = "Pending")
    (hitems : order.items = [(p1, q1), (p2, q2)])
    (hne : p1 ≠ p2)
    (hp1 : (assocFind s.products p1).isSome)
    (hp2 : (assocFind s.products p2).isSome)
    (hinv : s.inventory = pre ++ (k, item) :: post)
    (hpre : ∀ e ∈ pre, ¬ Sufficient p1 q1 e)
    (hk : k.1 = p1) (hq : item.quantity ≥ q1)
    (hno2 : ∀ e ∈ s.inventory, ¬ Sufficient p2 q2 e) :
    ∃ s2, s.fulfill_order oid = some (false, s2,
        [Condition.shipped p1, Condition.insufficientStock p2]) ∧
      s2.orders = s.orders ∧ assocFind s2.orders oid = some order ∧
      order.status = "Pending" ∧
      s2.inventory = pre ++ (k, { item with quantity := item.quantity - q1 }) :: post := by
  obtain ⟨pr1, hpr1⟩ := Option.isSome_iff_exists.mp hp1
  obtain ⟨pr2, hpr2⟩ := Option.isSome_iff_exists.mp hp2
  have hd1 : decrementFirstSufficient s.inventory p1 q1
      = some (pre ++ (k, { item with quantity := item.quantity - q1 }) :: post) := by
    rw [hinv]
    exact decrementFirstSufficient_append_found pre post k item p1 q1 hpre hk hq
  have hmem2 : ∀ e ∈ pre ++ (k, { item with quantity := item.quantity - q1 }) :: post,
      ¬ Sufficient p2 q2 e := by
    intro e he
    rcases List.mem_append.mp he with he | he
    · exact hno2 e (hinv ▸ List.mem_append_left _ he)
    · rcases List.mem_cons.mp he with he | he
      · subst he
        intro hsuf
        exact hne (hk ▸ hsuf.1.symm ▸ rfl)
      · exact hno2 e (hinv ▸ List.mem_append_right _ (List.mem_cons_of_mem _ he))
  have hd2 : decrementFirstSufficient
      (pre ++ (k, { item with quantity := item.quantity - q1 }) :: post) p2 q2 = none :=
    (decrementFirstSufficient_eq_none_iff _ p2 q2).mpr hmem2
  refine ⟨{ s with inventory :=
      pre ++ (k, { item with quantity := item.quantity - q1 }) :: post }, ?_, rfl, horder,
      hstatus, rfl⟩
  simp [FoodSupplyChain.fulfill_order, horder, hitems, fulfillLoop, hd1, hd2, hpr1, hpr2]

/-- Witness for C1: fulfilling the two-line-item sample order fails on the
second item but leaves 6 units of P1 (4 already shipped, not rolled back)
and the order "Pending". -/
theorem claim_C1_witness :
    ∃ s2, s1c.fulfill_order "ORD-1" = some (false, s2,
        [Condition.shipped "P1", Condition.insufficientStock "P2"]) ∧
      s2.orders = s1c.orders ∧ assocFind s2.orders "ORD-1" = some wOrder12 ∧
      wOrder12.status = "Pending" ∧
      s2.inventory =
        [] ++ (("P1", "L1"), { wItem10 with quantity := wItem10.quantity - 4 }) :: [] :=
  claim_C1 s1c "ORD-1" wOrder12 "P1" "P2" 4 3 [] [] ("P1", "L1") wItem10
    (by decide) rfl rfl (by decide) (by decide) (by decide) rfl
    (by simp) rfl (by decide) (by decide)

/-- Claim C2: when two inventory entries for the same product each hold
sufficient stock, `fulfill_order` decrements the one inserted earlier into
the inventory mapping (the first sufficient match in insertion order) and
leaves the later one's quantity unchanged. -/
theorem claim_C2 (s : FoodSupplyChain) (oid : String) (order : Order)
    (p : String) (q : Int) (l1 l2 : String)
    (pre mid post : List ((String × String) × InventoryItem)) (i1 i2 : InventoryItem)
    (horder : assocFind s.orders oid = some order)
    (hitems : order.items = [(p, q)])
    (hp : (assocFind s.products p).isSome)
    (hinv : s.inventory = pre ++ ((p, l1), i1) :: (mid ++ ((p, l2), i2) :: post))
    (hpre : ∀ e ∈ pre, ¬ Sufficient p q e)
    (h1 : i1.quantity ≥ q) (h2 : i2.quantity ≥ q) :
    ∃ s2 cs, s.fulfill_order oid = some (true, s2, cs) ∧
      s2.inventory = pre ++ ((p, l1), { i1 with quantity := i1.quantity - q }) ::
        (mid ++ ((p, l2), i2) :: post) := by
  obtain ⟨pr, hpr⟩ := Option.isSome_iff_exists.mp hp
  have hd : decrementFirstSufficient s.inventory p q
      = some (pre ++ ((p, l1), { i1 with quantity := i1.quantity - q }) ::
          (mid ++ ((p, l2), i2) :: post)) := by
    rw [hinv]
    exact decrementFirstSufficient_append_found pre (mid ++ ((p, l2), i2) :: post)
      (p, l1) i1 p q hpre rfl h1
  refine ⟨{ s with
      inventory := pre ++ ((p, l1), { i1 with quantity := i1.quantity - q }) ::
        (mid ++ ((p, l2), i2) :: post),
      orders := dictInsert s.orders oid (order.update_status "Fulfilled") },
    [Condition.shipped p] ++ [Condition.orderFulfilled], ?_, rfl⟩
  simp [FoodSupplyChain.fulfill_order, horder, hitems, fulfillLoop, hd, hpr]

/-- a registry holding the same product at two locations, both with enough
stock for the pending order. -/
def s2c : FoodSupplyChain :=
  { products := [("P1", wProduct)],
    locations := [("L1", wLocation), ("L2", wLocation2)],
    inventory := [(("P1", "L1"), wItem10), (("P1", "L2"), wItem5)],
    orders := [("ORD-1", wOrder)], deliveries := [] }

/-- Witness for C2: with 10 units at L1 (inserted first) and 5 at L2, the
order for 4 units ships from L1, leaving L2 untouched. -/
theorem claim_C2_witness :
    ∃ s2 cs, s2c.fulfill_order "ORD-1" = some (true, s2, cs) ∧
      s2.inventory = [] ++ (("P1", "L1"), { wItem10 with quantity := wItem10.quantity - 4 }) ::
        ([] ++ (("P1", "L2"), wItem5) :: []) :=
  claim_C2 s2c "ORD-1" wOrder "P1" 4 "L1" "L2" [] [] [] wItem10 wItem5
    (by decide) rfl (by decide) rfl (by simp) (by decide) (by decide)

/-- Claim C3: for a registered order, `schedule_delivery` returns an absent
value and changes nothing whenever the status is not exactly "Fulfilled";
and immediately after a successful `fulfill_order` it succeeds, creating
and registering a new Delivery that references that order. -/
theorem claim_C3 (s : FoodSupplyChain) (oid : String) (dd : Option String) (order : Order)
    (horder : assocFind s.orders oid = some order) :
    (order.status ≠ "Fulfilled" →
      s.schedule_delivery oid dd = (none, s, Condition.notYetFulfilled)) ∧
    (∀ (s2 : FoodSupplyChain) (cs : List Condition),
      s.fulfill_order oid = some (true, s2, cs) →
      ∃ d s3, s2.schedule_delivery oid dd = (some d, s3, Condition.deliveryScheduled) ∧
        d.order_id = oid ∧
        s3.deliveries = dictInsert s2.deliveries d.delivery_id d ∧
        assocFind s3.deliveries d.delivery_id = some d) := by
  constructor
  · intro hst
    simp [FoodSupplyChain.schedule_delivery, horder, hst]
  · intro s2 cs h
    cases hl : fulfillLoop s.products s.inventory order.items with
    | none => simp [FoodSupplyChain.fulfill_order, horder, hl] at h
    | some trip =>
        obtain ⟨ok, inv2, cs2⟩ := trip
        cases ok with
        | false => simp [FoodSupplyChain.fulfill_order, horder, hl] at h
        | true =>
            simp only [FoodSupplyChain.fulfill_order, horder, hl, Option.some.injEq,
              Prod.mk.injEq, true_and] at h
            obtain ⟨h2, h3⟩ := h
            have horder2 : assocFind s2.orders oid = some (order.update_status "Fulfilled") := by
              rw [← h2]
              exact assocFind_dictInsert_self s.orders oid (order.update_status "Fulfilled")
            have hst2 : (order.update_status "Fulfilled").status = "Fulfilled" := rfl
            refine
              ⟨⟨"DEL-" ++ Nat.repr (s2.deliveries.length + 1), oid, dd, none, "Scheduled"⟩,
                { s2 with
                    deliveries :=
                      dictInsert s2.deliveries ("DEL-" ++ Nat.repr (s2.deliveries.length + 1))
                        ⟨"DEL-" ++ Nat.repr (s2.deliveries.length + 1), oid, dd, none,
                          "Scheduled"⟩ },
                ?_, rfl, rfl, ?_⟩
            · simp [FoodSupplyChain.schedule_delivery, horder2, hst2]
            · exact assocFind_dictInsert_self s2.deliveries _ _

/-- Witness for C3: scheduling the pending sample order fails with no state
change, and scheduling right after its successful fulfillment succeeds with
a registered Delivery referencing it. -/
theorem claim_C3_witness :
    (s4.schedule_delivery "ORD-1" none = (none, s4, Condition.notYetFulfilled)) ∧
    (∃ d s3, s4after.schedule_delivery "ORD-1" none =
        (some d, s3, Condition.deliveryScheduled) ∧
      d.order_id = "ORD-1" ∧
      s3.deliveries = dictInsert s4after.deliveries d.delivery_id d ∧
      assocFind s3.deliveries d.delivery_id = some d) :=
  ⟨(claim_C3 s4 "ORD-1" none wOrder (by decide)).1 (by decide),
   (claim_C3 s4 "ORD-1" none wOrder (by decide)).2 s4after
     [Condition.shipped "P1", Condition.orderFulfilled] (by decide)⟩

/-- Claim C9: `fulfill_order` never inspects the order's current status: an
order already marked "Fulfilled" whose line items can still be satisfied is
fulfilled again, decrementing inventory a second time; consequently
fulfillment is not idempotent (fulfilling twice can leave different
inventory than fulfilling once). -/
theorem claim_C9 :
    (∀ (s : FoodSupplyChain) (oid : String) (order : Order)
        (inv2 : List ((String × String) × InventoryItem)) (cs : List Condition),
        assocFind s.orders oid = some order → order.status = "Fulfilled" →
        fulfillLoop s.products s.inventory order.items = some (true, inv2, cs) →
        ∃ s2, s.fulfill_order oid = some (true, s2, cs ++ [Condition.orderFulfilled]) ∧
          s2.inventory = inv2) ∧
    (∃ (s s1 s2 : FoodSupplyChain) (oid : String) (cs1 cs2 : List Condition),
        s.fulfill_order oid = some (true, s1, cs1) ∧
        s1.fulfill_order oid = some (true, s2, cs2) ∧
        s2.inventory ≠ s1.inventory) := by
  constructor
  · intro s oid order inv2 cs ho hst hl
    refine
      ⟨{ s with
          inventory := inv2,
          orders := dictInsert s.orders oid (order.update_status "Fulfilled") },
        ?_, rfl⟩
    simp [FoodSupplyChain.fulfill_order, ho, hl]
  · exact ⟨s4, s4after, s4twice, "ORD-1",
      [Condition.shipped "P1", Condition.orderFulfilled],
      [Condition.shipped "P1", Condition.orderFulfilled],
      by decide, by decide, by decide⟩

/-- Witness for C9's universal part: re-fulfilling the already-fulfilled
sample order succeeds and ships another 4 units. -/
theorem claim_C9_witness :
    ∃ s2, s4after.fulfill_order "ORD-1" = some (true, s2,
        [Condition.shipped "P1"] ++ [Condition.orderFulfilled]) ∧
      s2.inventory = [(("P1", "L1"), { wItem10 with quantity := 2 })] :=
  claim_C9.1 s4after "ORD-1" wOrderF [(("P1", "L1"), { wItem10 with quantity := 2 })]
    [Condition.shipped "P1"] (by decide) rfl (by decide)

/-! ### Lemmas about order placement -/

theorem Order.add_item_order_id (o : Order) (pid : String) (q : Int) :
    (o.add_item pid q).order_id = o.order_id := by
  unfold Order.add_item
  cases assocFind o.items pid <;> rfl

theorem Order.add_item_find_none (o : Order) (k pid : String) (q : Int)
    (hne : k ≠ pid) (h : assocFind o.items pid = none) :
    assocFind (o.add_item k q).items pid = none := by
  unfold Order.add_item
  cases hf : assocFind o.items k with
  | some v =>
      simp only []
      rw [assocFind_dictInsert_ne _ _ _ _ (Ne.symm hne)]
      exact h
  | none =>
      simp only []
      rw [assocFind_append_of_none _ _ _ h]
      simp [assocFind, hne]

theorem Order.add_item_mem (o : Order) (k : String) (q : Int) (it : String × Int)
    (h : it ∈ (o.add_item k q).items) : it.1 = k ∨ it ∈ o.items := by
  unfold Order.add_item at h
  cases hf : assocFind o.items k with
  | some v =>
      rw [hf] at h
      simp only [] at h
      rcases mem_dictInsert h with h | h
      · left
        rw [h]
      · right
        exact h
  | none =>
      rw [hf] at h
      simp only [] at h
      rcases List.mem_append.mp h with h | h
      · right
        exact h
      · left
        have h2 := List.mem_singleton.mp h
        rw [h2]

theorem foldl_placeOrderStep_order_id (products : List (String × Product)) :
    ∀ (its : List (String × Int)) (acc : Order × List Condition),
      (its.foldl (placeOrderStep products) acc).1.order_id = acc.1.order_id := by
  intro its
  induction its with
  | nil => intro acc; rfl
  | cons it rest ih =>
      intro acc
      rw [List.foldl_cons, ih]
      unfold placeOrderStep
      by_cases h : (assocFind products it.1).isSome
      · simp only [h, if_true]
        exact Order.add_item_order_id acc.1 it.1 it.2
      · simp [h]

theorem foldl_placeOrderStep_find_none (products : List (String × Product)) (pid : String)
    (hunreg : assocFind products pid = none) :
    ∀ (its : List (String × Int)) (acc : Order × List Condition),
      assocFind acc.1.items pid = none →
      assocFind ((its.foldl (placeOrderStep products) acc).1).items pid = none := by
  intro its
  induction its with
  | nil => intro acc h; exact h
  | cons it rest ih =>
      intro acc h
      rw [List.foldl_cons]
      apply ih
      unfold placeOrderStep
      by_cases hr : (assocFind products it.1).isSome
      · have hne : it.1 ≠ pid := by
          intro hh
          rw [hh, hunreg] at hr
          simp at hr
        simp only [hr, if_true]
        exact Order.add_item_find_none acc.1 it.1 pid it.2 hne h
      · simp only [hr, if_false]
        exact h

theorem foldl_placeOrderStep_cond_mono (products : List (String × Product)) :
    ∀ (its : List (String × Int)) (acc : Order × List Condition) (c : Condition),
      c ∈ acc.2 → c ∈ (its.foldl (placeOrderStep products) acc).2 := by
  intro its
  induction its with
  | nil => intro acc c h; exact h
  | cons it rest ih =>
      intro acc c h
      rw [List.foldl_cons]
      apply ih
      unfold placeOrderStep
      by_cases hr : (assocFind products it.1).isSome
      · simp only [hr, if_true]
        exact h
      · simp only [hr, if_false]
        exact List.mem_append_left _ h

theorem foldl_placeOrderStep_cond_mem (products : List (String × Product)) (pid : String)
    (hunreg : assocFind products pid = none) :
    ∀ (its : List (String × Int)) (acc : Order × List Condition) (q : Int),
      (pid, q) ∈ its →
      Condition.productNotFound pid ∈ (its.foldl (placeOrderStep products) acc).2 := by
  intro its
  induction its with
  | nil => intro acc q h; simp at h
  | cons it rest ih =>
      intro acc q h
      rw [List.foldl_cons]
      rcases List.mem_cons.mp h with h | h
      · apply foldl_placeOrderStep_cond_mono
        subst h
        unfold placeOrderStep
        simp [hunreg]
      · exact ih _ q h

/-- Claim C8: placing an order whose item mapping names an unregistered
product id still creates, registers and returns the order; the returned
order has no line item for that id, and a not-found condition is reported
for it (partial success). -/
theorem claim_C8 (s : FoodSupplyChain) (customer : String)
    (order_items : List (String × Int)) (pid : String) (q : Int)
    (hmem : (pid, q) ∈ order_items)
    (hunreg : assocFind s.products pid = none) :
    ∀ (o : Order) (s2 : FoodSupplyChain) (cs : List Condition),
      s.place_order customer order_items = (o, s2, cs) →
      assocFind o.items pid = none ∧ assocFind s2.orders o.order_id = some o ∧
        Condition.productNotFound pid ∈ cs := by
  intro o s2 cs h
  simp only [FoodSupplyChain.place_order] at h
  injection h with h1 h23
  injection h23 with h2 h3
  subst h1 h2 h3
  refine ⟨?_, ?_, ?_⟩
  · exact foldl_placeOrderStep_find_none s.products pid hunreg order_items _ rfl
  · rw [foldl_placeOrderStep_order_id]
    exact assocFind_dictInsert_self s.orders _ _
  · exact List.mem_append_left _
      (foldl_placeOrderStep_cond_mem s.products pid hunreg order_items _ q hmem)

/-- Witness for C8: ordering an unregistered product "P9" from the sample
registry yields a registered order without that line item and a reported
not-found condition. -/
theorem claim_C8_witness :
    assocFind (s4.place_order "Carol" [("P9", 2)]).1.items "P9" = none ∧
      assocFind (s4.place_order "Carol" [("P9", 2)]).2.1.orders
        (s4.place_order "Carol" [("P9", 2)]).1.order_id
        = some (s4.place_order "Carol" [("P9", 2)]).1 ∧
      Condition.productNotFound "P9" ∈ (s4.place_order "Carol" [("P9", 2)]).2.2 :=
  claim_C8 s4 "Carol" [("P9", 2)] "P9" 2 (by decide) (by decide)
    (s4.place_order "Carol" [("P9", 2)]).1 (s4.place_order "Carol" [("P9", 2)]).2.1
    (s4.place_order "Carol" [("P9", 2)]).2.2 rfl

/-! ### The orders-reference-registered-products invariant -/

theorem assocFind_append_isSome {α β : Type} [DecidableEq α] (l1 l2 : List (α × β)) (k : α)
    (h : (assocFind l1 k).isSome) : (assocFind (l1 ++ l2) k).isSome := by
  obtain ⟨v, hv⟩ := Option.isSome_iff_exists.mp h
  rw [assocFind_append_left _ _ _ _ hv]
  rfl

/-- every registered order's item keys are registered product ids. -/
def OrdersOK (s : FoodSupplyChain) : Prop :=
  ∀ e ∈ s.orders, ∀ it ∈ e.2.items, (assocFind s.products it.1).isSome

theorem ordersOK_add_product (s : FoodSupplyChain) (p : Product) (h : OrdersOK s) :
    OrdersOK (s.add_product p).1 := by
  unfold FoodSupplyChain.add_product
  by_cases hc : (assocFind s.products p.product_id).isNone
  · simp only [hc, if_true]
    intro e he it hit
    exact assocFind_append_isSome _ _ _ (h e he it hit)
  · simp only [hc, if_false]
    exact h

theorem ordersOK_add_location (s : FoodSupplyChain) (l : Location) (h : OrdersOK s) :
    OrdersOK (s.add_location l).1 := by
  unfold FoodSupplyChain.add_location
  by_cases hc : (assocFind s.locations l.location_id).isNone
  · simp only [hc, if_true]
    exact h
  · simp only [hc, if_false]
    exact h

theorem ordersOK_add_inventory (s : FoodSupplyChain) (pid lid : String) (q : Int)
    (h : OrdersOK s) : OrdersOK (s.add_inventory pid lid q).1 := by
  cases hp : assocFind s.products pid with
  | none =>
      have he : (s.add_inventory pid lid q).1 = s := by
        simp [FoodSupplyChain.add_inventory, hp]
      rw [he]
      exact h
  | some prod =>
      cases hl : assocFind s.locations lid with
      | none =>
          have he : (s.add_inventory pid lid q).1 = s := by
            simp [FoodSupplyChain.add_inventory, hp, hl]
          rw [he]
          exact h
      | some loc =>
          cases hi : assocFind s.inventory (pid, lid) with
          | none =>
              have he : (s.add_inventory pid lid q).1 = { s with inventory :=
                  s.inventory ++ [((pid, lid),
                    { product := prod, location := loc, quantity := q })] } := by
                simp [FoodSupplyChain.add_inventory, hp, hl, hi]
              rw [he]
              exact h
          | some item =>
              have he : (s.add_inventory pid lid q).1
                  = { s with inventory := incrInventory s.inventory (pid, lid) q } := by
                simp [FoodSupplyChain.add_inventory, hp, hl, hi]
              rw [he]
              exact h

theorem foldl_placeOrderStep_items_reg (products : List (String × Product)) :
    ∀ (its : List (String × Int)) (acc : Order × List Condition),
      (∀ it ∈ acc.1.items, (assocFind products it.1).isSome) →
      ∀ it ∈ (its.foldl (placeOrderStep products) acc).1.items,
        (assocFind products it.1).isSome := by
  intro its
  induction its with
  | nil => intro acc hacc; exact hacc
  | cons it rest ih =>
      intro acc hacc
      rw [List.foldl_cons]
      apply ih
      intro it2 hit2
      unfold placeOrderStep at hit2
      by_cases hr : (assocFind products it.1).isSome
      · rw [if_pos hr] at hit2
        rcases Order.add_item_mem acc.1 it.1 it.2 it2 hit2 with h | h
        · rw [h]
          exact hr
        · exact hacc it2 h
      · rw [if_neg hr] at hit2
        exact hacc it2 hit2

theorem ordersOK_place_order (s : FoodSupplyChain) (customer : String)
    (its : List (String × Int)) (h : OrdersOK s) :
    OrdersOK (s.place_order customer its).2.1 := by
  intro e he it hit
  simp only [FoodSupplyChain.place_order] at he
  rcases mem_dictInsert he with he | he
  · subst he
    exact foldl_placeOrderStep_items_reg s.products its _ (by intro it2 h2; simp at h2)
      it hit
  · exact h e he it hit

theorem ordersOK_fulfill_order (s s2 : FoodSupplyChain) (oid : String) (r : Bool)
    (cs : List Condition) (h : OrdersOK s)
    (hf : s.fulfill_order oid = some (r, s2, cs)) : OrdersOK s2 := by
  cases ho : assocFind s.orders oid with
  | none =>
      simp only [FoodSupplyChain.fulfill_order, ho, Option.some.injEq, Prod.mk.injEq] at hf
      obtain ⟨h1, h2, h3⟩ := hf
      subst h2
      exact h
  | some order =>
      cases hl : fulfillLoop s.products s.inventory order.items with
      | none => simp [FoodSupplyChain.fulfill_order, ho, hl] at hf
      | some trip =>
          obtain ⟨ok, inv2, cs2⟩ := trip
          cases ok with
          | false =>
              simp only [FoodSupplyChain.fulfill_order, ho, hl, Option.some.injEq,
                Prod.mk.injEq] at hf
              obtain ⟨h1, h2, h3⟩ := hf
              subst h2
              exact h
          | true =>
              simp only [FoodSupplyChain.fulfill_order, ho, hl, Option.some.injEq,
                Prod.mk.injEq] at hf
              obtain ⟨h1, h2, h3⟩ := hf
              subst h2
              intro e he it hit
              rcases mem_dictInsert he with he | he
              · subst he
                exact h (oid, order) (assocFind_mem ho) it hit
              · exact h e he it hit

theorem ordersOK_schedule_delivery (s : FoodSupplyChain) (oid : String) (dd : Option String)
    (h : OrdersOK s) : OrdersOK (s.schedule_delivery oid dd).2.1 := by
  cases ho : assocFind s.orders oid with
  | none =>
      have he : (s.schedule_delivery oid dd).2.1 = s := by
        simp [FoodSupplyChain.schedule_delivery, ho]
      rw [he]
      exact h
  | some order =>
      by_cases hst : order.status ≠ "Fulfilled"
      · have he : (s.schedule_delivery oid dd).2.1 = s := by
          simp [FoodSupplyChain.schedule_delivery, ho, hst]
        rw [he]
        exact h
      · have hst2 : order.status = "Fulfilled" := not_not.mp hst
        have he : (s.schedule_delivery oid dd).2.1
            = { s with
                deliveries :=
                  dictInsert s.deliveries ("DEL-" ++ Nat.repr (s.deliveries.length + 1))
                    ⟨"DEL-" ++ Nat.repr (s.deliveries.length + 1), oid, dd, none,
                      "Scheduled"⟩ } := by
          simp [FoodSupplyChain.schedule_delivery, ho, hst2]
        rw [he]
        exact h

theorem ordersOK_update_delivery_status (s : FoodSupplyChain) (did ns : String)
    (h : OrdersOK s) : OrdersOK (s.update_delivery_status did ns).1 := by
  unfold FoodSupplyChain.update_delivery_status
  cases hd : assocFind s.deliveries did with
  | none => exact h
  | some d => exact h

theorem reachable_ordersOK (s : FoodSupplyChain) (h : Reachable s) : OrdersOK s := by
  induction h with
  | init =>
      intro e he it hit
      simp [FoodSupplyChain.init] at he
  | add_product s p hr ih => exact ordersOK_add_product s p ih
  | add_location s l hr ih => exact ordersOK_add_location s l ih
  | add_inventory s pid lid q hr ih => exact ordersOK_add_inventory s pid lid q ih
  | place_order s customer its hr ih => exact ordersOK_place_order s customer its ih
  | fulfill_order s s2 oid r cs hr hf ih => exact ordersOK_fulfill_order s s2 oid r cs ih hf
  | schedule_delivery s oid dd hr ih => exact ordersOK_schedule_delivery s oid dd ih
  | update_delivery_status s did ns hr ih =>
      exact ordersOK_update_delivery_status s did ns ih

theorem fulfill_order_ne_none_of_ordersOK (s : FoodSupplyChain) (h : OrdersOK s)
    (oid : String) : s.fulfill_order oid ≠ none := by
  cases ho : assocFind s.orders oid with
  | none => simp [FoodSupplyChain.fulfill_order, ho]
  | some order =>
      have hreg : ∀ it ∈ order.items, (assocFind s.products it.1).isSome :=
        h (oid, order) (assocFind_mem ho)
      have hne := fulfillLoop_ne_none s.products order.items s.inventory hreg
      cases hl : fulfillLoop s.products s.inventory order.items with
      | none => exact absurd hl hne
      | some trip =>
          obtain ⟨ok, inv2, cs2⟩ := trip
          cases ok <;> simp [FoodSupplyChain.fulfill_order, ho, hl]

/-- Claim C10: in every state reachable through the registry's operations,
each registered order's item keys are registered product ids (products are
never removed, and `place_order` only adds registered line items), so the
`self.products[product_id]` lookup inside `fulfill_order` never fails:
`fulfill_order` never returns the KeyError outcome. -/
theorem claim_C10 (s : FoodSupplyChain) (h : Reachable s) :
    OrdersOK s ∧ ∀ oid, s.fulfill_order oid ≠ none := by
  have hOK := reachable_ordersOK s h
  exact ⟨hOK, fun oid => fulfill_order_ne_none_of_ordersOK s hOK oid⟩

/-- Witness for C10 at a concrete reachable state: register a product, then
place an order for it. -/
theorem claim_C10_witness :
    OrdersOK ((FoodSupplyChain.init.add_product wProduct).1.place_order
        "Alice" [("P1", 4)]).2.1 ∧
      ∀ oid, (((FoodSupplyChain.init.add_product wProduct).1.place_order
        "Alice" [("P1", 4)]).2.1).fulfill_order oid ≠ none :=
  claim_C10 _ (Reachable.place_order _ "Alice" [("P1", 4)]
    (Reachable.add_product _ wProduct Reachable.init))

/-! ### Sequential order ids -/

theorem ordId_inj {m n : Nat}
    (h : "ORD-" ++ Nat.repr m = "ORD-" ++ Nat.repr n) : m = n :=
  natRepr_inj (string_append_cancel_left h)

/-- repeatedly apply `place_order`, keeping only the evolving registry. -/
def run_place_orders (s : FoodSupplyChain)
    (calls : List (String × List (String × Int))) : FoodSupplyChain :=
  calls.foldl (fun t c => (t.place_order c.1 c.2).2.1) s

/-- the registered order keys are exactly ORD-1 .. ORD-n in insertion
order. -/
def OrdIdsSequential (s : FoodSupplyChain) : Prop :=
  s.orders.map Prod.fst
    = (List.range s.orders.length).map (fun i => "ORD-" ++ Nat.repr (i + 1))

theorem place_order_orders_seq (s : FoodSupplyChain) (customer : String)
    (its : List (String × Int)) (hseq : OrdIdsSequential s) :
    OrdIdsSequential (s.place_order customer its).2.1 ∧
      (s.place_order customer its).2.1.orders.length = s.orders.length + 1 := by
  have hfresh : assocFind s.orders ("ORD-" ++ Nat.repr (s.orders.length + 1)) = none := by
    rw [assocFind_eq_none_iff]
    intro hmem
    rw [hseq] at hmem
    obtain ⟨i, hi, he⟩ := List.mem_map.mp hmem
    have hii : i + 1 = s.orders.length + 1 := ordId_inj he
    have hlt : i < s.orders.length := List.mem_range.mp hi
    omega
  constructor
  · unfold OrdIdsSequential
    simp only [FoodSupplyChain.place_order]
    rw [dictInsert_of_find_none _ _ _ hfresh]
    rw [List.map_append, List.length_append, hseq]
    simp [List.range_succ, hseq]
  · simp only [FoodSupplyChain.place_order]
    rw [dictInsert_of_find_none _ _ _ hfresh]
    simp

theorem run_place_orders_spec :
    ∀ (calls : List (String × List (String × Int))) (s : FoodSupplyChain),
      OrdIdsSequential s →
      OrdIdsSequential (run_place_orders s calls) ∧
        (run_place_orders s calls).orders.length = s.orders.length + calls.length := by
  intro calls
  induction calls with
  | nil => intro s hs; exact ⟨hs, by simp [run_place_orders]⟩
  | cons c rest ih =>
      intro s hs
      have hstep := place_order_orders_seq s c.1 c.2 hs
      have hrun : run_place_orders s (c :: rest)
          = run_place_orders (s.place_order c.1 c.2).2.1 rest := by
        simp [run_place_orders]
      rw [hrun]
      obtain ⟨h1, h2⟩ := ih _ hstep.1
      refine ⟨h1, ?_⟩
      rw [h2, hstep.2]
      simp only [List.length_cons]
      omega

/-- Claim C6: starting from a fresh registry, after any n earlier
`place_order` calls the next call returns an order whose id is
"ORD-" followed by the decimal rendering of n+1, regardless of the
customers and item contents of any of the calls. -/
theorem claim_C6 (pre : List (String × List (String × Int)))
    (customer : String) (its : List (String × Int)) :
    ((run_place_orders FoodSupplyChain.init pre).place_order customer its).1.order_id
      = "ORD-" ++ Nat.repr (pre.length + 1) := by
  have hinit : OrdIdsSequential FoodSupplyChain.init := by
    simp [OrdIdsSequential, FoodSupplyChain.init]
  obtain ⟨hseq, hlen⟩ := run_place_orders_spec pre FoodSupplyChain.init hinit
  simp only [FoodSupplyChain.place_order]
  rw [foldl_placeOrderStep_order_id]
  rw [hlen]
  simp [FoodSupplyChain.init]

/-- Witness for C6: the third call on a fresh registry yields "ORD-3". -/
theorem claim_C6_witness :
    ((run_place_orders FoodSupplyChain.init
        [("A", []), ("B", [("P1", 1)])]).place_order "C" [("P2", 2)]).1.order_id
      = "ORD-" ++ Nat.repr (2 + 1) :=
  claim_C6 [("A", []), ("B", [("P1", 1)])] "C" [("P2", 2)]
